import Mathlib

/-!
Verification of the resocks core (key-based mutual TLS and the multiplexed
relay/tunnel protocol) against its natural-language specification.

The Go sources are shallowly embedded: pure functions become Lean functions
over byte lists, fallible functions return `Except`/`Option`, the
nondeterministic inputs of the proxy coordinator (accepted connections, read
errors, clock, fresh leaf key material) become explicit parameters, and the
event/stream side effects of the coordinators become explicit traces.
-/

namespace Resocks

/-- Byte strings: Go byte slices and Go strings are both plain byte sequences,
modelled as lists of natural numbers (a well-formed byte is below 256, which is
assumed or checked exactly where a property needs it). -/
abbrev Bytes := List Nat

/-- Byte sequence of an ASCII string literal, used to transcribe the Go string
constants appearing in the sources. -/
def strBytes (s : String) : Bytes := s.data.map Char.toNat

/-- Base64 alphabet of Go `encoding/base64` standard encodings, as ASCII
codes: indices 0-25 map to A-Z, 26-51 to a-z, 52-61 to 0-9, 62 to the plus
sign and 63 to the slash. -/
def b64alphabetByte (n : Nat) : Nat :=
  if n < 26 then 65 + n
  else if n < 52 then 97 + (n - 26)
  else if n < 62 then 48 + (n - 52)
  else if n = 62 then 43
  else 47

/-- Position of an ASCII code in the base64 alphabet (`none` for bytes outside
the alphabet); the decoder's lookup table. -/
def b64indexOfByte (c : Nat) : Option Nat :=
  if 65 ≤ c ∧ c ≤ 90 then some (c - 65)
  else if 97 ≤ c ∧ c ≤ 122 then some (26 + (c - 97))
  else if 48 ≤ c ∧ c ≤ 57 then some (52 + (c - 48))
  else if c = 43 then some 62
  else if c = 47 then some 63
  else none

/-- Go `base64.RawStdEncoding.EncodeToString`: each three-byte group becomes
four alphabet characters; a final one- or two-byte group becomes two or three
characters, and no padding is emitted. -/
def base64RawStdEncode : Bytes → Bytes
  | [] => []
  | [b0] => [b64alphabetByte (b0 / 4), b64alphabetByte (b0 % 4 * 16)]
  | [b0, b1] =>
    [b64alphabetByte (b0 / 4), b64alphabetByte (b0 % 4 * 16 + b1 / 16),
     b64alphabetByte (b1 % 16 * 4)]
  | b0 :: b1 :: b2 :: rest =>
    b64alphabetByte (b0 / 4) :: b64alphabetByte (b0 % 4 * 16 + b1 / 16) ::
    b64alphabetByte (b1 % 16 * 4 + b2 / 64) :: b64alphabetByte (b2 % 64) ::
    base64RawStdEncode rest

/-- Go `base64.RawStdEncoding.DecodeString`: each four-character group becomes
three bytes, a final group of two or three characters becomes one or two
bytes, and a final single character or any byte outside the alphabet is a
decode error (`none`). -/
def base64RawStdDecode : Bytes → Option Bytes
  | [] => some []
  | [_] => none
  | [c0, c1] =>
    match b64indexOfByte c0, b64indexOfByte c1 with
    | some s0, some s1 => some [s0 * 4 + s1 / 16]
    | _, _ => none
  | [c0, c1, c2] =>
    match b64indexOfByte c0, b64indexOfByte c1, b64indexOfByte c2 with
    | some s0, some s1, some s2 =>
      some [s0 * 4 + s1 / 16, s1 % 16 * 16 + s2 / 4]
    | _, _, _ => none
  | c0 :: c1 :: c2 :: c3 :: rest =>
    match b64indexOfByte c0, b64indexOfByte c1, b64indexOfByte c2,
        b64indexOfByte c3, base64RawStdDecode rest with
    | some s0, some s1, some s2, some s3, some bs =>
      some ((s0 * 4 + s1 / 16) :: (s1 % 16 * 16 + s2 / 4) :: (s2 % 4 * 64 + s3) :: bs)
    | _, _, _, _, _ => none

/-- Helper for `natToBytesBE` with explicit fuel so that the definition is
structurally recursive (the fuel is an upper bound on the number of digits,
any fuel of at least the value itself suffices). -/
def natToBytesBEAux : Nat → Nat → Bytes
  | 0, _ => []
  | _ + 1, 0 => []
  | fuel + 1, n => natToBytesBEAux fuel (n / 256) ++ [n % 256]

/-- Go `big.Int.Bytes()` for a non-negative value: the minimal big-endian byte
representation (empty for zero). -/
def natToBytesBE (n : Nat) : Bytes := natToBytesBEAux n n

/-- Modelled from the spec: Go `ed25519.NewKeyFromSeed(seed).Public()` (Go
standard library, outside this repository) derives the public key
deterministically from a 32-byte seed; the derivation is collision free and
yields 32 public-key bytes. It is modelled symbolically by a function with
exactly these properties - determinism, injectivity and length preservation -
since the concrete curve arithmetic plays no role in any claim. -/
def ed25519PublicKeyFromSeed (seed : Bytes) : Bytes := seed

/-- `pbtls.ConnectionKey`, a 32-byte ed25519 seed (`[ed25519.SeedSize]byte`).
The fixed-size Go array is modelled as a byte list; every consuming operation
checks (or is stated under) length 32. -/
structure ConnectionKey where
  bytes : Bytes
deriving DecidableEq

/-- `pbtls.isZero`: true when every byte of the slice is zero. -/
def isZero (s : Bytes) : Bool := s.all (fun v => v == 0)

/-- `pbtls.checkKeyBytes`: reject slices that are not exactly 32 bytes or that
are all-zero. -/
def checkKeyBytes (key : Bytes) : Except String Unit :=
  if key.length ≠ 32 then
    .error ("key has only " ++ toString key.length ++ " bytes instead of 32")
  else if isZero key then .error "invalid all-zero connection key"
  else .ok ()

/-- `pbtls.ParseConnectionKey`: reject the empty string, base64-decode
(raw standard encoding), validate via `checkKeyBytes`, then copy into the
32-byte array (the copy fills at most 32 bytes and the function double-checks
that exactly 32 were copied). -/
def ParseConnectionKey (key : Bytes) : Except String ConnectionKey :=
  if key = [] then .error "connection key is empty"
  else
    match base64RawStdDecode key with
    | none => .error "base64 decode: invalid input"
    | some keyBytes =>
      match checkKeyBytes keyBytes with
      | .error e => .error e
      | .ok _ =>
        if min 32 keyBytes.length ≠ 32 then
          .error ("only " ++ toString (min 32 keyBytes.length) ++
            " bytes were copied instead of 32")
        else .ok ⟨keyBytes.take 32 ++ List.replicate (32 - keyBytes.length) 0⟩

/-- The `String` method of `pbtls.ConnectionKey`: unpadded base64 of the key
bytes. -/
def ConnectionKey.string (key : ConnectionKey) : Bytes :=
  base64RawStdEncode key.bytes

/-- The `PublicKey` method of `pbtls.ConnectionKey`: unpadded base64 of the
derived ed25519 public key. -/
def ConnectionKey.publicKey (key : ConnectionKey) : Bytes :=
  base64RawStdEncode (ed25519PublicKeyFromSeed key.bytes)

/-- `x509.ExtKeyUsage` values used by pbtls. -/
inductive ExtKeyUsage
  | clientAuth
  | serverAuth
deriving DecidableEq

/-- `tls.ClientAuthType` values used by pbtls. -/
inductive ClientAuthType
  | noClientCert
  | requireAndVerifyClientCert
deriving DecidableEq

/-- An x509 certificate, restricted to the fields pbtls sets and the TLS
peer-verification consults. The signature of the issuing CA is modelled
symbolically by `issuerPublicKey`: a chain check succeeds exactly when a
trusted CA holds that public key (the Dolev-Yao reading of signature
verification). Times are Unix seconds. -/
structure Certificate where
  serialNumber : Nat
  subjectCN : Bytes
  dnsNames : List Bytes
  notBeforeUnix : Nat
  notAfterUnix : Nat
  isCA : Bool
  extKeyUsage : List ExtKeyUsage
  publicKey : Bytes
  issuerPublicKey : Bytes
deriving DecidableEq

/-- The fields of `tls.Config` that pbtls sets (empty lists and the zero
client-auth mode stand for Go's nil/zero values). -/
structure TLSConfig where
  certificates : List Certificate
  clientAuth : ClientAuthType
  clientCAs : List Certificate
  rootCAs : List Certificate
  serverName : Bytes
  minVersion : Nat
deriving DecidableEq

/-- `tls.VersionTLS13`. -/
def versionTLS13 : Nat := 772

/-- Unix seconds of `time.Date(9999, 1, 1, 0, 0, 0, 0, UTC)`, the CA's
`NotAfter`. -/
def caNotAfterUnix : Nat := 253370764800

/-- Model of `now.AddDate(1, 0, 0)` as a fixed positive offset in seconds;
the claims only use that it does not precede `now`. -/
def yearSeconds : Nat := 31536000

/-- `pbtls.generateCA`: validate the key, derive the ed25519 key pair from it
(the private key is represented by its seed), and build the deterministic,
self-signed CA certificate. `x509.CreateCertificate` is called with a nil
random source and ed25519 signing is deterministic, so the resulting DER bytes
are a function of the key alone; the model therefore is a pure function. Note
that the template hardcodes `SerialNumber: big.NewInt(1337)`. -/
def generateCA (key : ConnectionKey) : Except String (Certificate × Bytes) :=
  match checkKeyBytes key.bytes with
  | .error e => .error e
  | .ok _ =>
    .ok ({ serialNumber := 1337
           subjectCN := key.publicKey
           dnsNames := []
           notBeforeUnix := 0
           notAfterUnix := caNotAfterUnix
           isCA := true
           extKeyUsage := [.clientAuth, .serverAuth]
           publicKey := ed25519PublicKeyFromSeed key.bytes
           issuerPublicKey := ed25519PublicKeyFromSeed key.bytes },
         key.bytes)

/-- The CA certificate derived from a key, without the private key. -/
def caCertOf (key : ConnectionKey) : Option Certificate :=
  (generateCA key).toOption.map Prod.fst

/-- The left side of the repository's own test `TestCASerialIsPublicKey`:
`base64.RawStdEncoding.EncodeToString(ca.SerialNumber.Bytes())` for the CA
derived from the key (empty for an invalid key). -/
def caSerialB64 (key : ConnectionKey) : Bytes :=
  match generateCA key with
  | .ok (cert, _) => base64RawStdEncode (natToBytesBE cert.serialNumber)
  | .error _ => []

/-- `pbtls.generateCertificate`: an ephemeral leaf certificate signed by the
CA. The fresh ed25519 leaf public key (drawn from `rand.Reader` in Go) and the
wall clock `time.Now()` are explicit parameters; the serial number
`big.NewInt(time.Now().UnixNano())` is modelled by the same clock parameter.
The PEM round trip through `tls.X509KeyPair` is elided: the model keeps the
certificate record itself. -/
def generateCertificate (caKeySeed : Bytes) (hostname : Bytes)
    (usage : ExtKeyUsage) (leafPublicKey : Bytes) (now : Nat) : Certificate :=
  { serialNumber := now
    subjectCN := []
    dnsNames := [hostname]
    notBeforeUnix := now
    notAfterUnix := now + yearSeconds
    isCA := false
    extKeyUsage := [usage]
    publicKey := leafPublicKey
    issuerPublicKey := ed25519PublicKeyFromSeed caKeySeed }

/-- `pbtls.ServerTLSConfigForHostname`: derive the CA, put it in the client-CA
pool, issue a server leaf certificate for the given hostname, and require and
verify client certificates, TLS 1.3 only. -/
def ServerTLSConfigForHostname (key : ConnectionKey) (hostname : Bytes)
    (leafPublicKey : Bytes) (now : Nat) : Except String TLSConfig :=
  match generateCA key with
  | .error e => .error ("generate CA: " ++ e)
  | .ok (ca, caKeySeed) =>
    .ok { certificates := [generateCertificate caKeySeed hostname .serverAuth leafPublicKey now]
          clientAuth := .requireAndVerifyClientCert
          clientCAs := [ca]
          rootCAs := []
          serverName := []
          minVersion := versionTLS13 }

/-- `pbtls.ServerTLSConfig`: `ServerTLSConfigForHostname` with the key's
derived public key as the hostname. -/
def ServerTLSConfig (key : ConnectionKey) (leafPublicKey : Bytes) (now : Nat) :
    Except String TLSConfig :=
  ServerTLSConfigForHostname key key.publicKey leafPublicKey now

/-- `pbtls.ClientTLSConfigForClientName`: derive the CA, trust only it as a
root, issue a client leaf certificate - the source passes `key.PublicKey()`
as its DNS name, not the `clientName` argument - and expect the server to
present the key's derived public key as its name, TLS 1.3 only. -/
def ClientTLSConfigForClientName (key : ConnectionKey) (_clientName : Bytes)
    (leafPublicKey : Bytes) (now : Nat) : Except String TLSConfig :=
  match generateCA key with
  | .error e => .error ("generate CA: " ++ e)
  | .ok (ca, caKeySeed) =>
    .ok { certificates := [generateCertificate caKeySeed key.publicKey .clientAuth leafPublicKey now]
          clientAuth := .noClientCert
          clientCAs := []
          rootCAs := [ca]
          serverName := key.publicKey
          minVersion := versionTLS13 }

/-- `pbtls.ClientTLSConfig`: `ClientTLSConfigForClientName` with the key's
derived public key as the client name. -/
def ClientTLSConfig (key : ConnectionKey) (leafPublicKey : Bytes) (now : Nat) :
    Except String TLSConfig :=
  ClientTLSConfigForClientName key key.publicKey leafPublicKey now

/-- The DNS names of the leaf certificates in a client config built by
`ClientTLSConfigForClientName` (`none` when the builder fails). -/
def clientLeafDNSNames (key : ConnectionKey) (clientName : Bytes)
    (leafPublicKey : Bytes) (now : Nat) : Option (List (List Bytes)) :=
  (ClientTLSConfigForClientName key clientName leafPublicKey now).toOption.map
    fun cfg => cfg.certificates.map Certificate.dnsNames

/-- Certificate validity window check of x509 verification. -/
def certValidAt (c : Certificate) (now : Nat) : Bool :=
  decide (c.notBeforeUnix ≤ now) && decide (now ≤ c.notAfterUnix)

/-- Modelled from the spec: x509 chain verification of a presented leaf
certificate against a trust pool (Go `crypto/x509`, outside this repository).
The leaf is accepted exactly when some valid CA certificate of the pool holds
the public key that signed the leaf (symbolic signature check), the leaf
carries the required extended key usage, and the leaf is within its validity
window. -/
def verifiesChain (pool : List Certificate) (leaf : Certificate)
    (usage : ExtKeyUsage) (now : Nat) : Bool :=
  pool.any (fun ca =>
      ca.isCA && decide (ca.publicKey = leaf.issuerPublicKey) && certValidAt ca now)
    && decide (usage ∈ leaf.extKeyUsage) && certValidAt leaf now && !leaf.isCA

/-- Modelled from the spec: the outcome of a TLS 1.3 handshake between a
server and a client configuration (Go `crypto/tls`, outside this repository;
spec 4.1: the server requires and verifies a client certificate against its
client-CA pool, the client verifies the server certificate against its root
pool and checks its expected server name against the leaf's DNS names).
Application data flows in both directions exactly when the handshake
succeeds. -/
def handshakeSucceeds (server client : TLSConfig) (now : Nat) : Bool :=
  match server.certificates, client.certificates with
  | [serverLeaf], [clientLeaf] =>
    decide (server.minVersion = versionTLS13) &&
    decide (client.minVersion = versionTLS13) &&
    verifiesChain client.rootCAs serverLeaf .serverAuth now &&
    decide (client.serverName ∈ serverLeaf.dnsNames) &&
    (match server.clientAuth with
     | .requireAndVerifyClientCert =>
       verifiesChain server.clientCAs clientLeaf .clientAuth now
     | .noClientCert => true)
  | _, _ => false

/-- Handshake outcome between the configs built from two keys (false when
either builder fails). -/
def builtConfigsHandshake (k1 k2 : ConnectionKey) (p1 p2 : Bytes) (now : Nat) :
    Bool :=
  match ServerTLSConfig k1 p1 now, ClientTLSConfig k2 p2 now with
  | .ok server, .ok client => handshakeSucceeds server client now
  | _, _ => false

/-- The event types of `proxyrelay.Event`. The Go constants are pairwise
distinct strings; they are modelled as an enumeration. -/
inductive EventType
  | error
  | relayConnected
  | relayDisconnected
  | socks5Active
  | socks5Inactive
  | socks5ConnectionOpened
  | socks5ConnectionClosed
deriving DecidableEq

/-- `proxyrelay.Event`. -/
structure Event where
  type : EventType
  data : Bytes
deriving DecidableEq

/-- `binary.BigEndian.PutUint32` of `uint32(n)` into a 4-byte buffer. -/
def be32bytes (n : Nat) : Bytes :=
  [n / 16777216 % 256, n / 65536 % 256, n / 256 % 256, n % 256]

/-- `binary.BigEndian.Uint32` of a 4-byte buffer. -/
def beUint32 (bs : Bytes) : Nat :=
  match bs with
  | [a, b, c, d] => a * 16777216 + b * 65536 + c * 256 + d
  | _ => 0

/-- The control-channel wire format: the concatenation of one frame per
message, each frame being the 4-byte big-endian length of the message followed
by the message bytes. -/
def encodeFrames : List Bytes → Bytes
  | [] => []
  | f :: rest => be32bytes f.length ++ f ++ encodeFrames rest

/-- What the control stream yields once its buffered data is exhausted:
end-of-stream (`io.EOF`) or some other read error with the given message. -/
inductive StreamEnd
  | eof
  | readErr (msg : Bytes)
deriving DecidableEq

/-- A deterministic model of one side of a `net.Conn` byte stream: the bytes
still to be delivered, then a terminal condition. A read with buffer size n
returns `min n data.length` bytes while data remains (no segmentation is
modelled), returns immediately with an empty result when n is zero, and
reports the terminal condition once the data is exhausted. -/
structure ByteStream where
  data : Bytes
  terminal : StreamEnd
deriving DecidableEq

/-- One loop of `proxyrelay.handleErrorNotificationConnection` per fuel unit,
mirroring the source: read into a 4-byte length buffer (a short read leaves
the zero-initialized remainder in place and is not an error), terminate
silently on `io.EOF`, emit one error event and terminate on any other read
error; otherwise read `length` message bytes into a zero-initialized buffer
and emit one error event carrying the buffer, then loop. Each iteration
consumes at least one byte of buffered data, so any fuel above `data.length`
makes the fuel case unreachable. -/
def readLoopFuel : Nat → ByteStream → List Event
  | 0, _ => []
  | fuel + 1, s =>
    if s.data = [] then
      match s.terminal with
      | .eof => []
      | .readErr m =>
        [⟨.error, strBytes "read message length from error notification connection: " ++ m⟩]
    else
      let chunk := s.data.take 4
      let lengthBytes := chunk ++ List.replicate (4 - chunk.length) 0
      let rest := s.data.drop 4
      let msgLen := beUint32 lengthBytes
      if msgLen = 0 then
        ⟨.error, []⟩ :: readLoopFuel fuel ⟨rest, s.terminal⟩
      else if rest = [] then
        match s.terminal with
        | .eof =>
          [⟨.error, strBytes "read message from error notification connection: EOF"⟩]
        | .readErr m =>
          [⟨.error, strBytes "read message from error notification connection: " ++ m⟩]
      else
        let msgChunk := rest.take msgLen
        let msg := msgChunk ++ List.replicate (msgLen - msgChunk.length) 0
        ⟨.error, msg⟩ :: readLoopFuel fuel ⟨rest.drop msgLen, s.terminal⟩

/-- `proxyrelay.handleErrorNotificationConnection`: the events the proxy-side
control-channel reader emits for a given control-stream byte stream. -/
def handleErrorNotificationConnection (s : ByteStream) : List Event :=
  readLoopFuel (s.data.length + 1) s

/-- The events the reader emits for the terminal condition alone. -/
def streamEndEvents : StreamEnd → List Event
  | .eof => []
  | .readErr m =>
    [⟨.error, strBytes "read message length from error notification connection: " ++ m⟩]

/-- `bytes.Trim(b, "\n")`: remove leading and trailing newline bytes. -/
def trimNewlines (b : Bytes) : Bytes :=
  ((b.dropWhile (fun v => v == 10)).reverse.dropWhile (fun v => v == 10)).reverse

/-- The go-socks5 log tag `"[ERR] socks: "` stripped by the relay-side
logger. -/
def socksLogTag : Bytes := strBytes "[ERR] socks: "

/-- `bytes.TrimPrefix(b, []byte("[ERR] socks: "))`. -/
def stripSocksTag (b : Bytes) : Bytes :=
  if b.take socksLogTag.length = socksLogTag then b.drop socksLogTag.length
  else b

/-- The `Write` method of `proxyrelay.remoteLogger`: trim newlines, strip the
go-socks5 log tag, surface the message as a local error event, and write one
control-channel frame - the 4-byte big-endian message length followed by the
message bytes. Returns the bytes written to the control stream and the locally
emitted event. -/
def remoteLoggerWrite (b : Bytes) : Bytes × Event :=
  let msg := stripSocksTag (trimNewlines b)
  (be32bytes msg.length ++ msg, ⟨.error, strBytes "socks: " ++ msg⟩)

/-- The role of a multiplexed stream within a session. -/
inductive StreamKind
  | control
  | forwarding
deriving DecidableEq

/-- One observable action of the proxy coordinator: an event delivered to the
callback, or a `Session.Open` call on the multiplexed session. -/
inductive ProxyAction
  | emit (e : Event)
  | openStream (k : StreamKind)
deriving DecidableEq

/-- A Go error value, abstracted to its message and whether
`errors.Is(err, net.ErrClosed)` holds (wrapping with `fmt.Errorf("...: %w")`
preserves the latter). -/
structure GoErr where
  msg : Bytes
  isErrClosed : Bool
deriving DecidableEq

/-- `fmt.Errorf("<pre>%w", err)`. -/
def wrapGoErr (pre : Bytes) (e : GoErr) : GoErr := ⟨pre ++ e.msg, e.isErrClosed⟩

/-- `fmt.Errorf` of a fresh message (never `net.ErrClosed`). -/
def newGoErr (m : Bytes) : GoErr := ⟨m, false⟩

/-- The ways the proxy side's `client.Open()` for the control stream can fail,
as classified by the source: `errors.Is(err, yamux.ErrSessionShutdown)`,
`errors.As(err, &tlsErr)` for a `tls.CertificateVerificationError`, or any
other error. -/
inductive OpenFailure
  | sessionShutdown
  | certVerificationErr (m : Bytes)
  | otherErr (e : GoErr)
deriving DecidableEq

/-- The error branch of `proxyrelay.handleRelayConnection` after a failed
control-stream open: session shutdown and certificate-verification failures
are translated to the single user-facing `invalid connection key` error,
anything else is wrapped as an `open error notification connection` error. -/
def openControlFailureError (f : OpenFailure) : GoErr :=
  match f with
  | .sessionShutdown => newGoErr (strBytes "invalid connection key")
  | .certVerificationErr _ => newGoErr (strBytes "invalid connection key")
  | .otherErr e => wrapGoErr (strBytes "open error notification connection: ") e

/-- One local SOCKS5 client connection accepted by the forwarding listener:
its formatted peer address and the error, if any, with which
`handleLocalProxyConn` finished. -/
structure ConnScenario where
  peer : Bytes
  copyErr : Option GoErr
deriving DecidableEq

/-- How the forwarding accept loop ends: the session closed first (the
listener close is then treated as a clean shutdown), or a genuine accept
error. -/
inductive AcceptOutcome
  | sessionClosed
  | acceptFailure (e : GoErr)
deriving DecidableEq

/-- The nondeterministic environment of one `RunProxyWithEventCallback` run:
the relay connection's remote address, the outcome of the control-stream open
(`none` is success), the outcome of binding the forwarding listener, the
accepted local connections (each handled to completion, in order), and how the
accept loop ends. -/
structure ProxyScenario where
  remoteAddr : Bytes
  controlOpen : Option OpenFailure
  listenErr : Option GoErr
  conns : List ConnScenario
  acceptEnd : AcceptOutcome
deriving DecidableEq

/-- The actions caused by one accepted local connection: the accept loop emits
the connection-opened event, the per-connection handler opens one forwarding
stream (`sess.Open()` in `handleLocalProxyConn`), a failed handler surfaces
one error event, and the connection-closed event follows. -/
def localConnTrace (c : ConnScenario) : List ProxyAction :=
  .emit ⟨.socks5ConnectionOpened, c.peer⟩ ::
  .openStream .forwarding ::
  ((match c.copyErr with
    | some e => [.emit ⟨.error, strBytes "handling socks5 connection: " ++ e.msg⟩]
    | none => []) ++
   [.emit ⟨.socks5ConnectionClosed, c.peer⟩])

/-- `proxyrelay.startLocalProxyServer`: a failed listen returns immediately;
otherwise the SOCKS5-active event is emitted, the accept loop runs, and the
deferred SOCKS5-inactive event is emitted after all connection handlers have
finished (the deferred wait-group wait runs before the deferred callback). A
session-initiated listener close ends the loop cleanly, any other accept error
is returned wrapped. -/
def startLocalProxyServerTrace (sc : ProxyScenario) :
    List ProxyAction × Option GoErr :=
  match sc.listenErr with
  | some e => ([], some (wrapGoErr (strBytes "listen for relay connection: ") e))
  | none =>
    (.emit ⟨.socks5Active, []⟩ ::
      ((sc.conns.map localConnTrace).flatten ++ [.emit ⟨.socks5Inactive, []⟩]),
     match sc.acceptEnd with
     | .sessionClosed => none
     | .acceptFailure e => some (wrapGoErr (strBytes "accept socks5 connection: ") e))

/-- `proxyrelay.handleRelayConnection`: open the control stream first (the
`Session.Open` call happens before anything else); on failure return the
translated error without starting the local proxy server, otherwise run the
local proxy server and wrap its error. The background control-channel reader
(`handleErrorNotificationConnection`) contributes no actions here: its events
are those of the relay-supplied control stream, modelled separately. -/
def handleRelayConnectionTrace (sc : ProxyScenario) :
    List ProxyAction × Option GoErr :=
  match sc.controlOpen with
  | some f => ([.openStream .control], some (openControlFailureError f))
  | none =>
    let r := startLocalProxyServerTrace sc
    (.openStream .control :: r.1,
     match r.2 with
     | some e => some (wrapGoErr (strBytes "proxy: ") e)
     | none => none)

/-- `proxyrelay.RunProxyWithEventCallback`: emit the relay-connected event,
run `handleRelayConnection`, turn a `net.ErrClosed` result into success, emit
the relay-disconnected event carrying the remaining error text, and return
the remaining error. -/
def RunProxyWithEventCallbackTrace (sc : ProxyScenario) :
    List ProxyAction × Option GoErr :=
  let r := handleRelayConnectionTrace sc
  let res : Option GoErr :=
    match r.1, r.2 with
    | _, some e => if e.isErrClosed then none else some e
    | _, none => none
  (.emit ⟨.relayConnected, sc.remoteAddr⟩ ::
    (r.1 ++ [.emit ⟨.relayDisconnected, match res with | some e => e.msg | none => []⟩]),
   res)

/-- The events of a proxy-side action trace, in emission order. -/
def traceEvents (acts : List ProxyAction) : List Event :=
  acts.filterMap fun a =>
    match a with
    | .emit e => some e
    | .openStream _ => none

/-- The `Session.Open` calls of a proxy-side action trace, in call order. -/
def traceOpens (acts : List ProxyAction) : List StreamKind :=
  acts.filterMap fun a =>
    match a with
    | .openStream k => some k
    | .emit _ => none

/-- `proxyrelay.RunRelayWithEventCallback`: the relay side's sequence of
`Session.Accept` calls - the first accepted stream becomes the control stream
(`errConn`), and only afterwards is the session handed to the SOCKS5 server,
whose serve loop accepts one forwarding stream per SOCKS5 client (spec 4.4;
the go-socks5 serve loop itself is outside this repository). -/
def runRelayAcceptSeq (socksClients : List Unit) : List StreamKind :=
  .control :: socksClients.map fun _ => .forwarding

/-- A concrete valid connection key: byte 1 followed by 31 zero bytes. -/
def witnessKey1 : ConnectionKey := ⟨1 :: List.replicate 31 0⟩

/-- A second concrete valid connection key, distinct from `witnessKey1`. -/
def witnessKey2 : ConnectionKey := ⟨2 :: List.replicate 31 0⟩

/-- The all-zero connection key (the zero value of `ConnectionKey`). -/
def zeroKey : ConnectionKey := ⟨List.replicate 32 0⟩

/-- Every base64 alphabet character decodes back to its index. -/
theorem b64_index_alphabet :
    ∀ s : Nat, s < 64 → b64indexOfByte (b64alphabetByte s) = some s := by
  decide

/-- Raw-standard base64 decoding is a left inverse of encoding on byte
lists. -/
theorem base64_roundtrip (bs : Bytes) (h : ∀ b ∈ bs, b < 256) :
    base64RawStdDecode (base64RawStdEncode bs) = some bs := by
  induction bs using base64RawStdEncode.induct with
  | case1 => rfl
  | case2 b0 =>
    have hb0 : b0 < 256 := h b0 (by simp)
    rw [base64RawStdEncode, base64RawStdDecode,
      b64_index_alphabet (b0 / 4) (by omega),
      b64_index_alphabet (b0 % 4 * 16) (by omega)]
    simp only [Option.some.injEq, List.cons.injEq, and_true]
    omega
  | case3 b0 b1 =>
    have hb0 : b0 < 256 := h b0 (by simp)
    have hb1 : b1 < 256 := h b1 (by simp)
    rw [base64RawStdEncode, base64RawStdDecode,
      b64_index_alphabet (b0 / 4) (by omega),
      b64_index_alphabet (b0 % 4 * 16 + b1 / 16) (by omega),
      b64_index_alphabet (b1 % 16 * 4) (by omega)]
    simp only [Option.some.injEq, List.cons.injEq, and_true]
    constructor
    · omega
    · omega
  | case4 b0 b1 b2 rest ih =>
    have hb0 : b0 < 256 := h b0 (by simp)
    have hb1 : b1 < 256 := h b1 (by simp)
    have hb2 : b2 < 256 := h b2 (by simp)
    have hrest : ∀ b ∈ rest, b < 256 := fun b hb => h b (by simp [hb])
    rw [base64RawStdEncode, base64RawStdDecode,
      b64_index_alphabet (b0 / 4) (by omega),
      b64_index_alphabet (b0 % 4 * 16 + b1 / 16) (by omega),
      b64_index_alphabet (b1 % 16 * 4 + b2 / 64) (by omega),
      b64_index_alphabet (b2 % 64) (by omega),
      ih hrest]
    simp only [Option.some.injEq, List.cons.injEq, and_true]
    refine ⟨by omega, by omega, by omega⟩

/-- Claim C1: a TLS handshake between `ServerTLSConfig(k1)` and
`ClientTLSConfig(k2)`, for 32-byte non-zero keys, succeeds (application data
exchanged both ways) exactly when `k1 = k2`; for different keys it fails with
a certificate-verification failure. The fresh leaf public keys and the
handshake time are arbitrary (the time within the CA validity window). -/
theorem c1_handshake_iff_same_key (k1 k2 : ConnectionKey)
    (hl1 : k1.bytes.length = 32) (hl2 : k2.bytes.length = 32)
    (hz1 : isZero k1.bytes = false) (hz2 : isZero k2.bytes = false)
    (p1 p2 : Bytes) (now : Nat) (hnow : now ≤ caNotAfterUnix) :
    (builtConfigsHandshake k1 k2 p1 p2 now = true) ↔ k1 = k2 := by
  have hck1 : checkKeyBytes k1.bytes = .ok () := by
    rw [checkKeyBytes, if_neg (by omega), hz1]
    simp
  have hck2 : checkKeyBytes k2.bytes = .ok () := by
    rw [checkKeyBytes, if_neg (by omega), hz2]
    simp
  constructor
  · intro h
    simp only [builtConfigsHandshake, ServerTLSConfig, ServerTLSConfigForHostname,
      ClientTLSConfig, ClientTLSConfigForClientName, generateCA, hck1, hck2,
      handshakeSucceeds, verifiesChain, certValidAt, generateCertificate,
      ed25519PublicKeyFromSeed, List.any_cons, List.any_nil, Bool.or_false,
      Bool.and_eq_true, decide_eq_true_eq] at h
    have hbytes : k2.bytes = k1.bytes := h.1.1.2.1.1.1.1.2
    cases k1
    cases k2
    exact congrArg ConnectionKey.mk hbytes.symm
  · rintro rfl
    simp only [builtConfigsHandshake, ServerTLSConfig, ServerTLSConfigForHostname,
      ClientTLSConfig, ClientTLSConfigForClientName, generateCA, hck1,
      handshakeSucceeds, verifiesChain, certValidAt, generateCertificate,
      ed25519PublicKeyFromSeed, List.any_cons, List.any_nil, Bool.or_false,
      Bool.and_eq_true, decide_eq_true_eq]
    simp [hnow]

/-- Witness for claim C1 at a concrete key and time zero. -/
theorem c1_handshake_iff_same_key_witness :
    (builtConfigsHandshake witnessKey1 witnessKey1 [] [] 0 = true) ↔
      witnessKey1 = witnessKey1 :=
  c1_handshake_iff_same_key witnessKey1 witnessKey1 (by decide) (by decide)
    (by decide) (by decide) [] [] 0 (Nat.zero_le _)

/-- Claim C2 (refuting the claimed serial/public-key relation): for the
concrete non-zero key `witnessKey1`, CA generation succeeds but the CA's
serial number is the constant 1337, whose byte representation encodes to the
three-character string BTk, which is never the 43-character derived public-key
string; the repository's own test `TestCASerialIsPublicKey` requires them to
be equal. -/
theorem c2_ca_serial_is_constant_1337 :
    (generateCA witnessKey1).isOk = true ∧
    caSerialB64 witnessKey1 = strBytes "BTk" ∧
    ConnectionKey.publicKey witnessKey1 ≠ strBytes "BTk" ∧
    caSerialB64 witnessKey1 ≠ ConnectionKey.publicKey witnessKey1 := by
  decide

/-- Claim C3: CA derivation is deterministic in the key - the model is a pure
function of the key, justified by the nil randomness source and deterministic
ed25519 signing in `generateCA` - and injective: for valid keys the derived CA
certificates are equal exactly when the keys are equal, so distinct keys never
share a CA certificate. -/
theorem c3_ca_deterministic_and_injective (k1 k2 : ConnectionKey)
    (hl1 : k1.bytes.length = 32) (hl2 : k2.bytes.length = 32)
    (hz1 : isZero k1.bytes = false) (hz2 : isZero k2.bytes = false) :
    (caCertOf k1).isSome = true ∧ (caCertOf k1 = caCertOf k2 ↔ k1 = k2) := by
  have hck1 : checkKeyBytes k1.bytes = .ok () := by
    rw [checkKeyBytes, if_neg (by omega), hz1]
    simp
  have hck2 : checkKeyBytes k2.bytes = .ok () := by
    rw [checkKeyBytes, if_neg (by omega), hz2]
    simp
  refine ⟨by simp [caCertOf, generateCA, hck1, Except.toOption], ?_, ?_⟩
  · intro h
    simp only [caCertOf, generateCA, hck1, hck2, Except.toOption, Option.map_some,
      Option.some.injEq, Certificate.mk.injEq, ed25519PublicKeyFromSeed] at h
    cases k1
    cases k2
    simp_all
  · rintro rfl
    rfl

/-- Witness for claim C3 at two concrete distinct keys. -/
theorem c3_ca_deterministic_and_injective_witness :
    (caCertOf witnessKey1).isSome = true ∧
    (caCertOf witnessKey1 = caCertOf witnessKey2 ↔ witnessKey1 = witnessKey2) :=
  c3_ca_deterministic_and_injective witnessKey1 witnessKey2 (by decide)
    (by decide) (by decide) (by decide)

/-- Claim C4: for the all-zero 32-byte key, parsing its base64 encoding, CA
generation, and both TLS config builders each return an error. -/
theorem c4_all_zero_key_rejected_everywhere :
    (ParseConnectionKey (ConnectionKey.string zeroKey)).isOk = false ∧
    (generateCA zeroKey).isOk = false ∧
    (ServerTLSConfig zeroKey [] 0).isOk = false ∧
    (ClientTLSConfig zeroKey [] 0).isOk = false := by
  decide

/-- Claim C5: parsing the canonical textual form of a valid (32-byte,
non-zero) connection key returns exactly that key with no error. -/
theorem c5_parse_string_roundtrip (k : ConnectionKey) (hl : k.bytes.length = 32)
    (hb : ∀ b ∈ k.bytes, b < 256) (hz : isZero k.bytes = false) :
    ParseConnectionKey (ConnectionKey.string k) = .ok k := by
  obtain ⟨kb⟩ := k
  simp only at hl hb hz
  have hdec := base64_roundtrip kb hb
  have hne : base64RawStdEncode kb ≠ [] := by
    intro hemp
    rw [hemp] at hdec
    rw [base64RawStdDecode] at hdec
    simp only [Option.some.injEq] at hdec
    rw [← hdec] at hl
    simp at hl
  have hck : checkKeyBytes kb = .ok () := by
    rw [checkKeyBytes, if_neg (by omega), hz]
    simp
  have htake : kb.take 32 = kb := by
    rw [← hl]
    exact List.take_length kb
  rw [ConnectionKey.string]
  simp only
  rw [ParseConnectionKey, if_neg hne, hdec]
  simp only [hck, hl, min_self, ne_eq, not_true_eq_false, if_false, Nat.sub_self,
    List.replicate_zero, List.append_nil, htake]

/-- Witness for claim C5 at a concrete key. -/
theorem c5_parse_string_roundtrip_witness :
    ParseConnectionKey (ConnectionKey.string witnessKey1) = .ok witnessKey1 :=
  c5_parse_string_roundtrip witnessKey1 (by decide) (by decide) (by decide)

/-- A 4-byte big-endian buffer written from a value below 2^32 reads back as
that value. -/
theorem beUint32_be32bytes (n : Nat) (h : n < 4294967296) :
    beUint32 (be32bytes n) = n := by
  simp only [be32bytes, beUint32]
  omega

/-- One iteration of the control-channel reader consumes exactly one
well-formed frame at the head of the stream and emits one error event carrying
the frame's message. -/
theorem readLoopFuel_step (f restData : Bytes) (t : StreamEnd) (n : Nat)
    (hf : f.length < 4294967296) :
    readLoopFuel (n + 1) ⟨be32bytes f.length ++ (f ++ restData), t⟩ =
      Event.mk .error f :: readLoopFuel n ⟨restData, t⟩ := by
  have hlen4 : (be32bytes f.length).length = 4 := rfl
  have hne : be32bytes f.length ++ (f ++ restData) ≠ [] := by
    simp [be32bytes]
  have htake : (be32bytes f.length ++ (f ++ restData)).take 4 = be32bytes f.length := by
    conv_lhs => rw [show (4 : Nat) = (be32bytes f.length).length from rfl]
    exact List.take_left _ _
  have hdrop : (be32bytes f.length ++ (f ++ restData)).drop 4 = f ++ restData := by
    conv_lhs => rw [show (4 : Nat) = (be32bytes f.length).length from rfl]
    exact List.drop_left _ _
  rw [readLoopFuel]
  simp only [hne, if_false, htake, hdrop, hlen4, Nat.sub_self, List.replicate_zero,
    List.append_nil, beUint32_be32bytes f.length hf]
  by_cases hzero : f.length = 0
  · rw [if_pos hzero]
    have : f = [] := List.length_eq_zero.mp hzero
    subst this
    simp
  · rw [if_neg hzero]
    have hfne : f ≠ [] := fun hemp => hzero (by rw [hemp]; rfl)
    have hrne : f ++ restData ≠ [] := by
      cases f with
      | nil => exact absurd rfl hfne
      | cons a l => simp
    rw [if_neg hrne]
    have htakef : (f ++ restData).take f.length = f := List.take_left _ _
    have hdropf : (f ++ restData).drop f.length = restData := List.drop_left _ _
    simp only [htakef, hdropf, Nat.sub_self, List.replicate_zero, List.append_nil]

/-- The control-channel reader, run with sufficient fuel on a stream of
well-formed frames, emits one error event per frame followed by the terminal
events. -/
theorem readLoopFuel_frames (frames : List Bytes) (t : StreamEnd) (fuel : Nat)
    (hfr : ∀ f ∈ frames, f.length < 4294967296)
    (hfuel : (encodeFrames frames).length < fuel) :
    readLoopFuel fuel ⟨encodeFrames frames, t⟩ =
      frames.map (fun f => Event.mk .error f) ++ streamEndEvents t := by
  induction frames generalizing fuel with
  | nil =>
    cases fuel with
    | zero => omega
    | succ n =>
      cases t with
      | eof => rfl
      | readErr m => rfl
  | cons f rest ih =>
    cases fuel with
    | zero => omega
    | succ n =>
      have hflen : f.length < 4294967296 := hfr f (by simp)
      have henc : encodeFrames (f :: rest) =
          be32bytes f.length ++ (f ++ encodeFrames rest) := by
        rw [encodeFrames, List.append_assoc]
      have hlen : (encodeFrames (f :: rest)).length =
          4 + f.length + (encodeFrames rest).length := by
        rw [henc]
        simp [be32bytes]
        omega
      rw [hlen] at hfuel
      rw [henc, readLoopFuel_step f (encodeFrames rest) t n hflen]
      rw [ih n (fun g hg => hfr g (List.mem_cons_of_mem f hg)) (by omega)]
      simp

/-- Claim C6: the control-channel reader consumes the control stream as
repeated frames of a 4-byte big-endian length followed by that many message
bytes, terminating silently on end-of-stream, emitting exactly one error event
and terminating on any other read error, and emitting exactly one error event
per complete frame carrying the frame's message text; and the relay-side
writer produces exactly this framing for every written log message. -/
theorem c6_control_channel_framing :
    (∀ (frames : List Bytes) (t : StreamEnd),
        (∀ f ∈ frames, f.length < 4294967296) →
        handleErrorNotificationConnection ⟨encodeFrames frames, t⟩ =
          frames.map (fun f => Event.mk .error f) ++ streamEndEvents t) ∧
    ∀ b : Bytes, (remoteLoggerWrite b).1 =
      encodeFrames [stripSocksTag (trimNewlines b)] := by
  constructor
  · intro frames t hfr
    exact readLoopFuel_frames frames t _ hfr (Nat.lt_succ_self _)
  · intro b
    simp [remoteLoggerWrite, encodeFrames]

/-- Witness for claim C6: a concrete two-byte frame before end-of-stream, and
a concrete log line written by the relay. -/
theorem c6_control_channel_framing_witness :
    handleErrorNotificationConnection ⟨encodeFrames [[104, 105]], .eof⟩ =
      [⟨.error, [104, 105]⟩] ∧
    (remoteLoggerWrite (strBytes "[ERR] socks: test")).1 =
      encodeFrames [strBytes "test"] := by
  constructor
  · have h := c6_control_channel_framing.1 [[104, 105]] .eof (by decide)
    simpa using h
  · have h := c6_control_channel_framing.2 (strBytes "[ERR] socks: test")
    simpa using h

/-- The empty action list opens no streams. -/
theorem traceOpens_nil : traceOpens [] = [] := rfl

/-- Emitting an event opens no stream. -/
theorem traceOpens_cons_emit (e : Event) (l : List ProxyAction) :
    traceOpens (.emit e :: l) = traceOpens l := rfl

/-- An open action contributes its stream kind. -/
theorem traceOpens_cons_open (k : StreamKind) (l : List ProxyAction) :
    traceOpens (.openStream k :: l) = k :: traceOpens l := rfl

/-- Stream opens distribute over concatenated traces. -/
theorem traceOpens_append (l1 l2 : List ProxyAction) :
    traceOpens (l1 ++ l2) = traceOpens l1 ++ traceOpens l2 :=
  List.filterMap_append l1 l2 _

/-- Each handled local connection opens exactly one forwarding stream. -/
theorem traceOpens_localConnTrace (c : ConnScenario) :
    traceOpens (localConnTrace c) = [.forwarding] := by
  cases hc : c.copyErr with
  | none =>
    rw [localConnTrace, hc]
    rfl
  | some e =>
    rw [localConnTrace, hc]
    rfl

/-- The accept loop's trace opens one forwarding stream per connection. -/
theorem traceOpens_connActions (conns : List ConnScenario) :
    traceOpens (conns.map localConnTrace).flatten =
      conns.map fun _ => StreamKind.forwarding := by
  induction conns with
  | nil => rfl
  | cons c rest ih =>
    rw [List.map_cons, List.flatten_cons, traceOpens_append,
      traceOpens_localConnTrace, ih, List.map_cons]
    rfl

/-- In every proxy-side run, the sequence of `Session.Open` calls starts with
the control stream, followed only by forwarding streams. -/
theorem traceOpens_runProxy (sc : ProxyScenario) :
    traceOpens (RunProxyWithEventCallbackTrace sc).1 =
      .control :: (match sc.controlOpen, sc.listenErr with
        | some _, _ => []
        | none, some _ => []
        | none, none => sc.conns.map fun _ => StreamKind.forwarding) := by
  cases hco : sc.controlOpen with
  | some f =>
    simp only [RunProxyWithEventCallbackTrace, handleRelayConnectionTrace, hco]
    rw [traceOpens_cons_emit, traceOpens_append, traceOpens_cons_open]
    simp [traceOpens_cons_emit, traceOpens_nil]
  | none =>
    cases hle : sc.listenErr with
    | some e =>
      simp only [RunProxyWithEventCallbackTrace, handleRelayConnectionTrace,
        startLocalProxyServerTrace, hco, hle]
      rw [traceOpens_cons_emit, traceOpens_append, traceOpens_cons_open]
      simp [traceOpens_cons_emit, traceOpens_nil]
    | none =>
      simp only [RunProxyWithEventCallbackTrace, handleRelayConnectionTrace,
        startLocalProxyServerTrace, hco, hle]
      rw [traceOpens_cons_emit, traceOpens_append, traceOpens_cons_open,
        traceOpens_cons_emit, traceOpens_append, traceOpens_connActions]
      simp [traceOpens_cons_emit, traceOpens_nil]

/-- Claim C7: on every session the control stream comes first - the proxy
side's first `Session.Open` call is the control stream and every forwarding
open comes strictly later, and the relay side's first accepted stream is the
control stream and every forwarding stream is accepted strictly later. -/
theorem c7_control_stream_first (sc : ProxyScenario) (clients : List Unit)
    (i j : Nat)
    (hi : (traceOpens (RunProxyWithEventCallbackTrace sc).1).get? i =
      some .forwarding)
    (hj : (runRelayAcceptSeq clients).get? j = some .forwarding) :
    (traceOpens (RunProxyWithEventCallbackTrace sc).1).get? 0 = some .control ∧
    0 < i ∧
    (runRelayAcceptSeq clients).get? 0 = some .control ∧ 0 < j := by
  rw [traceOpens_runProxy] at hi
  refine ⟨by rw [traceOpens_runProxy]; rfl, ?_, rfl, ?_⟩
  · cases i with
    | zero => simp at hi
    | succ m => omega
  · cases j with
    | zero => simp [runRelayAcceptSeq] at hj
    | succ m => omega

/-- Witness for claim C7: a run with one forwarded connection and one SOCKS5
client, whose forwarding streams sit at position 1 on both sides. -/
theorem c7_control_stream_first_witness :
    (traceOpens (RunProxyWithEventCallbackTrace
        ⟨[], none, none, [⟨[], none⟩], .sessionClosed⟩).1).get? 0 =
      some .control ∧
    0 < 1 ∧
    (runRelayAcceptSeq [()]).get? 0 = some .control ∧ 0 < 1 :=
  c7_control_stream_first ⟨[], none, none, [⟨[], none⟩], .sessionClosed⟩ [()]
    1 1 (by decide) (by decide)

/-- Claim C8: when the proxy side's control-stream open fails because of
session shutdown or a certificate-verification error, the proxy run returns
the single user-facing `invalid connection key` error - not the underlying
error - and the connection attempt is aborted (only the relay-connected and
relay-disconnected events occur); any other open failure is returned as an
`open error notification connection` error instead. -/
theorem c8_invalid_connection_key_error (sc : ProxyScenario) (f : OpenFailure)
    (hf : sc.controlOpen = some f) :
    ((f = .sessionShutdown ∨ ∃ m, f = .certVerificationErr m) →
      (RunProxyWithEventCallbackTrace sc).2 =
        some (newGoErr (strBytes "invalid connection key")) ∧
      traceEvents (RunProxyWithEventCallbackTrace sc).1 =
        [⟨.relayConnected, sc.remoteAddr⟩,
         ⟨.relayDisconnected, strBytes "invalid connection key"⟩]) ∧
    ∀ e : GoErr, f = .otherErr e →
      (handleRelayConnectionTrace sc).2 =
        some (wrapGoErr (strBytes "open error notification connection: ") e) := by
  constructor
  · rintro (rfl | ⟨m, rfl⟩) <;>
      simp [RunProxyWithEventCallbackTrace, handleRelayConnectionTrace, hf,
        openControlFailureError, newGoErr, traceEvents]
  · rintro e rfl
    simp [handleRelayConnectionTrace, hf, openControlFailureError]

/-- Witness for claim C8: a concrete run whose control-stream open fails with
session shutdown. -/
theorem c8_invalid_connection_key_error_witness :
    (RunProxyWithEventCallbackTrace
        ⟨strBytes "peer", some .sessionShutdown, none, [], .sessionClosed⟩).2 =
      some (newGoErr (strBytes "invalid connection key")) ∧
    traceEvents (RunProxyWithEventCallbackTrace
        ⟨strBytes "peer", some .sessionShutdown, none, [], .sessionClosed⟩).1 =
      [⟨.relayConnected, strBytes "peer"⟩,
       ⟨.relayDisconnected, strBytes "invalid connection key"⟩] :=
  (c8_invalid_connection_key_error
      ⟨strBytes "peer", some .sessionShutdown, none, [], .sessionClosed⟩
      .sessionShutdown rfl).1 (Or.inl rfl)

/-- Claim C9: in a successful proxy-side run with one relay connection, one
forwarded connection and no failures, the callback receives, in order:
relay-connected, SOCKS5-active, SOCKS5-connection-opened,
SOCKS5-connection-closed, SOCKS5-inactive, relay-disconnected - and no error
event; the run returns no error. -/
theorem c9_success_event_order (addr peer : Bytes) :
    traceEvents (RunProxyWithEventCallbackTrace
        ⟨addr, none, none, [⟨peer, none⟩], .sessionClosed⟩).1 =
      [⟨.relayConnected, addr⟩, ⟨.socks5Active, []⟩,
       ⟨.socks5ConnectionOpened, peer⟩, ⟨.socks5ConnectionClosed, peer⟩,
       ⟨.socks5Inactive, []⟩, ⟨.relayDisconnected, []⟩] ∧
    (RunProxyWithEventCallbackTrace
        ⟨addr, none, none, [⟨peer, none⟩], .sessionClosed⟩).2 = none := by
  constructor
  · rfl
  · rfl

/-- Claim C10: `ClientTLSConfigForClientName` ignores its client-name
argument - any two names yield the same config - and the client leaf
certificate always carries the key's derived public-key string as its only
DNS name, since the source invokes certificate generation with
`key.PublicKey()` rather than the name argument. -/
theorem c10_client_name_ignored (k : ConnectionKey)
    (hl : k.bytes.length = 32) (hz : isZero k.bytes = false)
    (n1 n2 leafPub : Bytes) (now : Nat) :
    ClientTLSConfigForClientName k n1 leafPub now =
      ClientTLSConfigForClientName k n2 leafPub now ∧
    clientLeafDNSNames k n1 leafPub now =
      some [[ConnectionKey.publicKey k]] := by
  have hck : checkKeyBytes k.bytes = .ok () := by
    rw [checkKeyBytes, if_neg (by omega), hz]
    simp
  refine ⟨rfl, ?_⟩
  simp [clientLeafDNSNames, ClientTLSConfigForClientName, generateCA, hck,
    generateCertificate, Except.toOption]

/-- Witness for claim C10 at a concrete key and two distinct client names. -/
theorem c10_client_name_ignored_witness :
    ClientTLSConfigForClientName witnessKey1 (strBytes "alpha") [] 0 =
      ClientTLSConfigForClientName witnessKey1 (strBytes "beta") [] 0 ∧
    clientLeafDNSNames witnessKey1 (strBytes "alpha") [] 0 =
      some [[ConnectionKey.publicKey witnessKey1]] :=
  c10_client_name_ignored witnessKey1 (by decide) (by decide)
    (strBytes "alpha") (strBytes "beta") [] 0

end Resocks
